import Mathlib

set_option maxRecDepth 100000

/-!
Verification of the tool-invocation and query-normalization layer of the
Ithaka AI chat endpoint (`src/app/api/chat/route.ts`).

The embedding is shallow: JavaScript `URLSearchParams` values become ordered
lists of key/value string pairs, JavaScript numbers (which are integral in
every code path that serializes them here) become `Int`, fallible HTTP
interaction becomes explicit outcome data passed to the embedded functions,
and `undefined` becomes a dedicated result constructor.
-/

/-! ## URLSearchParams model

A `URLSearchParams` value is an ordered list of key/value pairs.
`appendParam` models `params.append(k, v)`; `setParam` models
`params.set(k, v)` (replace the first pair with the key, drop later
duplicates, or append at the end when the key is absent). -/

abbrev Params : Type := List (String × String)

def appendParam (p : Params) (k v : String) : Params :=
  p ++ [(k, v)]

def eraseKey (k : String) : Params → Params
  | [] => []
  | e :: rest => if e.1 = k then eraseKey k rest else e :: eraseKey k rest

def setParam : Params → String → String → Params
  | [], k, v => [(k, v)]
  | e :: rest, k, v =>
    if e.1 = k then (k, v) :: eraseKey k rest else e :: setParam rest k v

/-- Keys of a parameter list, in order and with multiplicity. -/
def keysOf (p : Params) : List String :=
  p.map Prod.fst

/-- Values stored under key `k`, in order (`URLSearchParams.getAll`). -/
def valuesOf (k : String) (p : Params) : List String :=
  (p.filter (fun e => e.1 == k)).map Prod.snd

/-- First value stored under key `k`, if any (`URLSearchParams.get`). -/
def getParam (p : Params) (k : String) : Option String :=
  (p.find? (fun e => e.1 == k)).map Prod.snd

/-! ## Decimal serialization of integers

`id.toString()` / `price.toString()` on an integral JavaScript number
produces the usual signed decimal representation.  `digitsAux10` computes the
little-endian decimal digits with explicit fuel so that it is structurally
recursive and evaluates inside the kernel. -/

def decDigitChar (d : Nat) : Char := Char.ofNat (48 + d)

def digitsAux10 : Nat → Nat → List Nat
  | 0, _ => []
  | fuel + 1, n => if n = 0 then [] else n % 10 :: digitsAux10 fuel (n / 10)

def natRevDigits (n : Nat) : List Nat := digitsAux10 n n

def natRepr (n : Nat) : String :=
  if n = 0 then "0" else String.mk ((natRevDigits n).reverse.map decDigitChar)

/-- Embedding of `Number.prototype.toString()` for integral values. -/
def intRepr (i : Int) : String :=
  if i < 0 then "-" ++ natRepr i.natAbs else natRepr i.natAbs

def isDigitChar (c : Char) : Bool :=
  48 ≤ c.toNat && c.toNat ≤ 57

/-- Parse a non-empty all-digit string back to a natural number. -/
def parseNat? (s : String) : Option Nat :=
  if !s.data.isEmpty && s.data.all isDigitChar then
    some (Nat.ofDigits 10 ((s.data.map (fun c => c.toNat - 48)).reverse))
  else none

/-- Parse an optionally `-`-signed decimal string back to an integer. -/
def parseInt? (s : String) : Option Int :=
  match s.data with
  | [] => none
  | c :: cs =>
    if c = '-' then (parseNat? (String.mk cs)).map (fun n => -(Int.ofNat n))
    else (parseNat? (String.mk (c :: cs))).map (fun n => Int.ofNat n)

/-! ## Tool parameters and the query builder

`searchListingsTool.parameters` (route.ts lines 134-152) declares six
optional fields; `sort_by` is additionally constrained by `z.enum` to the
four canonical sort identifiers.  `searchListingsTool.execute`
(route.ts lines 153-216) assembles a `URLSearchParams` value from them:
array fields are appended pairwise under bracketed keys, and each scalar
field is set only when it is JavaScript-truthy (so `0` prices and the empty
string are skipped exactly like absent fields). -/

structure ToolParams where
  search : Option String
  categories : Option (List Int)
  destinations : Option (List Int)
  min_price : Option Int
  max_price : Option Int
  sort_by : Option String
deriving DecidableEq

/-- Canonical sort identifiers accepted by the backend (route.ts 144-149). -/
def SORT_OPTIONS : List String :=
  ["price-low-to-high", "price-high-to-low", "best-selling", "top-reviewed"]

/-- Embedding of the `z.enum(...).optional()` gate on `sort_by`: a tool call
whose raw `sort_by` is a non-member string fails schema validation and
`execute` never runs; every other field of the schema is structural and
passes through unchanged. -/
def zodValidate (raw : ToolParams) : Option ToolParams :=
  match raw.sort_by with
  | none => some raw
  | some s => if s ∈ SORT_OPTIONS then some raw else none

/-- Common shape of the scalar steps of `execute`: `if (x) params.set(k, f x)`
with `keep` the JavaScript truthiness test of the field value. -/
def scalarParam {α : Type} (p : Params) (key : String) (o : Option α)
    (keep : α → Bool) (f : α → String) : Params :=
  match o with
  | some v => if keep v then setParam p key (f v) else p
  | none => p

/-- Embedding of the query construction in `execute` (route.ts 162-196):
`destinations?.forEach(id => params.append("destinations[]", id.toString()))`,
the same for categories, then conditional `set` calls for `search`,
`min_price`, `max_price` and `sort_by`. -/
def buildParams (q : ToolParams) : Params :=
  let p1 := (q.destinations.getD []).foldl
    (fun p id => appendParam p "destinations[]" (intRepr id)) []
  let p2 := (q.categories.getD []).foldl
    (fun p id => appendParam p "categories[]" (intRepr id)) p1
  let p3 := scalarParam p2 "search" q.search (fun s => !(s == "")) (fun s => s)
  let p4 := scalarParam p3 "min_price" q.min_price (fun v => !(v == 0)) intRepr
  let p5 := scalarParam p4 "max_price" q.max_price (fun v => !(v == 0)) intRepr
  scalarParam p5 "sort_by" q.sort_by (fun s => !(s == "")) (fun s => s)

/-- Segment of the query contributed by one field, as a constant-key list. -/
def constSeg (key : String) (vs : List String) : Params :=
  vs.map (fun v => (key, v))

def scalarVals {α : Type} (o : Option α) (keep : α → Bool) (f : α → String) :
    List String :=
  match o with
  | some v => if keep v then [f v] else []
  | none => []

def destVals (q : ToolParams) : List String :=
  (q.destinations.getD []).map intRepr

def catVals (q : ToolParams) : List String :=
  (q.categories.getD []).map intRepr

def searchVals (q : ToolParams) : List String :=
  scalarVals q.search (fun s => !(s == "")) (fun s => s)

def minVals (q : ToolParams) : List String :=
  scalarVals q.min_price (fun v => !(v == 0)) intRepr

def maxVals (q : ToolParams) : List String :=
  scalarVals q.max_price (fun v => !(v == 0)) intRepr

def sortVals (q : ToolParams) : List String :=
  scalarVals q.sort_by (fun s => !(s == "")) (fun s => s)

/-- Ids recovered from a built query: the values under `k`, parsed back. -/
def parsedIds (k : String) (p : Params) : List Int :=
  (valuesOf k p).filterMap parseInt?

/-! ## Backend payloads and the listing search tool

`searchListings` (route.ts 86-107) performs one GET at
`.../activities/ai-tool?PARAMS&per_page=50`, never inspects `response.ok`,
projects `res.data.listings`, and — crucially — ends the promise chain with
`.catch(err => console.error(...))`, which swallows every failure (network
error, JSON parse error, or a body without `data.listings`) and resolves to
`undefined`.  A backend interaction is therefore embedded as an explicit
outcome: a network failure, or an HTTP response carrying a status and one of
three body shapes. -/

structure Category where
  id : Int
  name : String
deriving DecidableEq

structure BackendItem where
  title : String
  slug : String
  min_price : Int
  description : String
  categories : List Category
deriving DecidableEq

structure Listing where
  name : String
  slug : String
  price : Int
  description : String
  categories : List Category
deriving DecidableEq

/-- Projection of one backend item (route.ts 92-100): `name` from `title`,
`slug` verbatim, `price` from `min_price`, `description` verbatim, and the
`categories` array passed through unchanged (the TypeScript cast
`as \x7bname: string\x7d[]` does not alter the value). -/
def projectItem (item : BackendItem) : Listing :=
  { name := item.title
    slug := item.slug
    price := item.min_price
    description := item.description
    categories := item.categories }

inductive JsonBody where
  | badJson (msg : String)
  | wrongShape (msg : String)
  | listings (items : List BackendItem)
deriving DecidableEq

inductive BackendResponse where
  | networkError (msg : String)
  | http (status : Nat) (body : JsonBody)
deriving DecidableEq

/-- Result value `execute` hands back to the model-orchestration layer:
a listings array, a structured failure object, or JavaScript `undefined`. -/
inductive ToolResult where
  | listings (l : List Listing)
  | failure (error : String)
  | undef
deriving DecidableEq

def isFailureResult : ToolResult → Bool
  | .failure _ => true
  | _ => false

/-- Query actually placed on the request URL: the built parameters followed
by the fixed `per_page=50` pair (route.ts 88). -/
def sentQuery (p : Params) : Params :=
  p ++ [("per_page", "50")]

/-- Embedding of `searchListings` (route.ts 86-107).  The `backend` argument
gives the outcome of the single fetch as a function of the query actually
sent.  The four arms mirror the promise chain: a rejected fetch, a rejected
`res.json()`, and a `TypeError` from `res.data.listings` are all captured by
the final `.catch`, which logs and resolves to `undefined`; a body with a
`data.listings` array is projected item by item.  `response.ok` is never
consulted, so the HTTP status does not influence the result. -/
def searchListings (params : Params) (backend : Params → BackendResponse) :
    ToolResult :=
  match backend (sentQuery params) with
  | .networkError _ => .undef
  | .http _ (.badJson _) => .undef
  | .http _ (.wrongShape _) => .undef
  | .http _ (.listings items) => .listings (items.map projectItem)

/-- Embedding of `searchListingsTool.execute` (route.ts 153-216).  The body
builds the query and awaits `searchListings`.  Nothing in the body can throw:
the `URLSearchParams` calls are total and `searchListings` never rejects
(its own `.catch` already swallowed any fault), so the surrounding
`try/catch` — whose handler would return the structured failure object —
is unreachable and the function reduces to the call below. -/
def searchListingsToolExecute (q : ToolParams)
    (backend : Params → BackendResponse) : ToolResult :=
  searchListings (buildParams q) backend

/-! ## JSON value of the projected `categories` field

The tool result is serialized to JSON before the model sees it.  For the
`categories` field the code produces an array of category objects, while the
specification describes an array of bare name strings; `CatValue` is the
common value domain in which the two can be compared. -/

inductive CatValue where
  | str (s : String)
  | obj (id : Int) (name : String)
deriving DecidableEq

/-- JSON serialization of one backend category object. -/
def categoryJson (c : Category) : CatValue :=
  .obj c.id c.name

/-- JSON value of the `categories` field of a projected listing. -/
def listingCategoriesJson (l : Listing) : List CatValue :=
  l.categories.map categoryJson

/-! ## Conversation endpoint

`POST` (route.ts 219-611) parses the request body, checks the provider
credential, awaits the four reference-data fetches in order, and invokes the
model; any exception reaches the single `try/catch` and becomes a JSON
`Internal server error` body with status 500.  The missing-credential branch
instead returns a plain-text `Response` with status 500. -/

inductive JsError where
  | nullv
  | strv (s : String)
  | errv (msg : String)
  | otherv (json : String)
deriving DecidableEq

/-- Embedding of `errorHandler` (route.ts 15-29): `null`/`undefined` becomes
`"unknown error"`, a string is returned as is, an `Error` contributes its
message, and anything else its `JSON.stringify` image (carried directly by
the `otherv` constructor). -/
def errorHandler : JsError → String
  | .nullv => "unknown error"
  | .strv s => s
  | .errv msg => msg
  | .otherv json => json

/-- Outcome of one reference-data fetch: the fetch rejected, the response
arrived with `ok` false, or it arrived with `ok` true. -/
inductive RefFetchOutcome where
  | reject (e : JsError)
  | respFail
  | respOk
deriving DecidableEq

/-- Embedding of `fetchDestinations` (route.ts 33-39): a non-ok response
throws `Error("Failed to fetch destinations")`. -/
def fetchDestinations : RefFetchOutcome → Except JsError Unit
  | .reject e => .error e
  | .respFail => .error (.errv "Failed to fetch destinations")
  | .respOk => .ok ()

/-- Embedding of `fetchCategories` (route.ts 41-47). -/
def fetchCategories : RefFetchOutcome → Except JsError Unit
  | .reject e => .error e
  | .respFail => .error (.errv "Failed to fetch categories")
  | .respOk => .ok ()

/-- Embedding of `fetchPrivacyPolicy` (route.ts 49-55). -/
def fetchPrivacyPolicy : RefFetchOutcome → Except JsError Unit
  | .reject e => .error e
  | .respFail => .error (.errv "Failed to fetch Privacy Policy")
  | .respOk => .ok ()

/-- Embedding of `fetchFaq` (route.ts 57-63). -/
def fetchFaq : RefFetchOutcome → Except JsError Unit
  | .reject e => .error e
  | .respFail => .error (.errv "Failed to fetch FAQ")
  | .respOk => .ok ()

/-- Response of the endpoint, as observable by the HTTP caller: a streamed
success, a plain-text body with a status, or a JSON object with `error` and
`details` fields and a status. -/
inductive PostResponse where
  | streamResp
  | textResp (status : Nat) (body : String)
  | jsonErrResp (status : Nat) (error : String) (details : String)
deriving DecidableEq

/-- Whether a response is a non-success JSON error object of the
`error`/`details` shape. -/
def isStructuredJsonError : PostResponse → Bool
  | .jsonErrResp status _ _ => !(status == 200)
  | _ => false

/-- Embedding of `POST` (route.ts 219-611).  `bodyParse` is the outcome of
`await req.json()`, `hasKey` whether `GOOGLE_GENERATIVE_AI_API_KEY` is set,
the four `RefFetchOutcome`s drive the sequential reference fetches, and
`modelRun` is the outcome of setting up the model stream.  Every thrown
error lands in the one `catch`, which produces the JSON 500 body; the
missing-key branch returns early with a plain string body.  The function is
total, so no request can crash the handler. -/
def POST (bodyParse : Except JsError Unit) (hasKey : Bool)
    (dOut cOut pOut fOut : RefFetchOutcome)
    (modelRun : Except JsError Unit) : PostResponse :=
  match bodyParse with
  | .error e => .jsonErrResp 500 "Internal server error" (errorHandler e)
  | .ok _ =>
    if !hasKey then .textResp 500 "Google API key not configured"
    else
      match fetchDestinations dOut with
      | .error e => .jsonErrResp 500 "Internal server error" (errorHandler e)
      | .ok _ =>
        match fetchCategories cOut with
        | .error e => .jsonErrResp 500 "Internal server error" (errorHandler e)
        | .ok _ =>
          match fetchPrivacyPolicy pOut with
          | .error e =>
            .jsonErrResp 500 "Internal server error" (errorHandler e)
          | .ok _ =>
            match fetchFaq fOut with
            | .error e =>
              .jsonErrResp 500 "Internal server error" (errorHandler e)
            | .ok _ =>
              match modelRun with
              | .error e =>
                .jsonErrResp 500 "Internal server error" (errorHandler e)
              | .ok _ => .streamResp

/-! ## Sort normalizer

Modelled from the spec: the Sort Normalizer of section 4.1 survives in the
repository only as commented-out code (route.ts 109-129) delegating to the
external Fuse.js library, so the component is reconstructed from the
specification's words — case-insensitive, edit-distance-tolerant matching of
a raw sort token against the canonical set, with a documented threshold
below which the result is "no match".  `editDistance` is the standard
Levenshtein distance, computed row by row so that it evaluates inside the
kernel. -/

def jsCharToLower (c : Char) : Char :=
  if 65 ≤ c.toNat ∧ c.toNat ≤ 90 then Char.ofNat (c.toNat + 32) else c

/-- Embedding of `String.prototype.toLowerCase()` on ASCII data. -/
def jsToLower (s : String) : String :=
  String.mk (s.data.map jsCharToLower)

def levStepAux (ca : Char) : List Char → List Nat → Nat → Nat → List Nat
  | [], _, _, _ => []
  | _ :: _, [], _, _ => []
  | cb :: bs, pr :: prs, diag, left =>
    let cost := if ca = cb then 0 else 1
    let cur := min (min (left + 1) (pr + 1)) (diag + cost)
    cur :: levStepAux ca bs prs pr cur

def levStep (ca : Char) (b : List Char) (prev : List Nat) : List Nat :=
  match prev with
  | [] => []
  | p0 :: ps => (p0 + 1) :: levStepAux ca b ps p0 (p0 + 1)

/-- Levenshtein edit distance between two character lists. -/
def editDistance (a b : List Char) : Nat :=
  ((a.foldl (fun row ca => levStep ca b row) (List.range (b.length + 1))).getLast?).getD 0

/-- Modelled from the spec: candidate with the smallest edit distance to the
(lowered) input, earlier canonical entries winning ties. -/
def bestSortMatch (s : List Char) : List String → Option (String × Nat)
  | [] => none
  | c :: rest =>
    let d := editDistance s c.data
    match bestSortMatch s rest with
    | none => some (c, d)
    | some (c2, d2) => if d ≤ d2 then some (c, d) else some (c2, d2)

/-- Modelled from the spec: tunable similarity threshold.  A candidate is
accepted when its edit distance is at most `NUM/DEN` of the longer of the
two strings (one half, mirroring the Fuse.js threshold 0.5 of the
commented-out source). -/
def SORT_THRESHOLD_NUM : Nat := 1

def SORT_THRESHOLD_DEN : Nat := 2

def matchSortLower (ls : List Char) : Option String :=
  match bestSortMatch ls SORT_OPTIONS with
  | none => none
  | some (c, d) =>
    if SORT_THRESHOLD_DEN * d ≤ SORT_THRESHOLD_NUM * max ls.length c.data.length
    then some c else none

/-- Modelled from the spec: the Sort Normalizer (section 4.1, and the
commented-out `getClosestSortOption` of route.ts 122-129).  An empty or
absent input is no match; otherwise the lowered input is matched
approximately against the canonical set. -/
def getClosestSortOption (input : String) : Option String :=
  if input = "" then none else matchSortLower (jsToLower input).data

/-! ## Concrete inputs used by witnesses and counterexamples -/

def qAllAbsent : ToolParams := ⟨none, none, none, none, none, none⟩

def qC4 : ToolParams := ⟨none, some [4, 9], some [3, 7], none, none, none⟩

def qC5 : ToolParams := ⟨none, none, none, none, none, some "best-selling"⟩

def qC7 : ToolParams := ⟨none, none, none, some 50, some 20, none⟩

def qC10 : ToolParams := ⟨some "", none, none, some 0, some 0, none⟩

def itemC2 : BackendItem :=
  { title := "Snorkeling Trip"
    slug := "snorkeling-trip"
    min_price := 30
    description := "A guided reef tour."
    categories := [{ id := 7, name := "Water Sports" }] }

/-! ## Helper lemmas: the parameter list machinery -/

theorem keysOf_append (p1 p2 : Params) :
    keysOf (p1 ++ p2) = keysOf p1 ++ keysOf p2 := by
  simp [keysOf]

theorem keysOf_cons (e : String × String) (p : Params) :
    keysOf (e :: p) = e.1 :: keysOf p := rfl

theorem keysOf_constSeg (key : String) (vs : List String) :
    keysOf (constSeg key vs) = vs.map (fun _ => key) := by
  simp [keysOf, constSeg, List.map_map]

theorem not_mem_keysOf_constSeg {k key : String} (h : k ≠ key)
    (vs : List String) : k ∉ keysOf (constSeg key vs) := by
  rw [keysOf_constSeg]
  intro hmem
  obtain ⟨x, _, hx⟩ := List.mem_map.mp hmem
  exact h hx.symm

theorem not_mem_keysOf_append {k : String} {p1 p2 : Params}
    (h1 : k ∉ keysOf p1) (h2 : k ∉ keysOf p2) : k ∉ keysOf (p1 ++ p2) := by
  rw [keysOf_append]
  intro h
  rcases List.mem_append.mp h with h | h
  · exact h1 h
  · exact h2 h

theorem setParam_not_mem (p : Params) (k v : String) (h : k ∉ keysOf p) :
    setParam p k v = p ++ [(k, v)] := by
  induction p with
  | nil => rfl
  | cons e rest ih =>
    rw [keysOf_cons, List.mem_cons, not_or] at h
    simp only [setParam]
    rw [if_neg (Ne.symm h.1)]
    simp [ih h.2]

theorem foldl_appendParam (xs : List Int) (key : String) (f : Int → String)
    (p : Params) :
    xs.foldl (fun acc id => appendParam acc key (f id)) p =
      p ++ constSeg key (xs.map f) := by
  induction xs generalizing p with
  | nil => simp [constSeg]
  | cons x xs ih =>
    rw [List.foldl_cons, ih (appendParam p key (f x))]
    simp [appendParam, constSeg, List.append_assoc]

theorem scalarParam_eq {α : Type} (p : Params) (key : String) (o : Option α)
    (keep : α → Bool) (f : α → String) (h : key ∉ keysOf p) :
    scalarParam p key o keep f = p ++ constSeg key (scalarVals o keep f) := by
  cases o with
  | none => simp [scalarParam, scalarVals, constSeg]
  | some v =>
    by_cases hv : keep v = true
    · simp [scalarParam, scalarVals, hv, constSeg, setParam_not_mem p key (f v) h]
    · simp [scalarParam, scalarVals, hv, constSeg]

theorem destVals_def (q : ToolParams) :
    destVals q = (q.destinations.getD []).map intRepr := rfl

theorem catVals_def (q : ToolParams) :
    catVals q = (q.categories.getD []).map intRepr := rfl

theorem searchVals_def (q : ToolParams) :
    searchVals q = scalarVals q.search (fun s => !(s == "")) (fun s => s) := rfl

theorem minVals_def (q : ToolParams) :
    minVals q = scalarVals q.min_price (fun v => !(v == 0)) intRepr := rfl

theorem maxVals_def (q : ToolParams) :
    maxVals q = scalarVals q.max_price (fun v => !(v == 0)) intRepr := rfl

theorem sortVals_def (q : ToolParams) :
    sortVals q = scalarVals q.sort_by (fun s => !(s == "")) (fun s => s) := rfl

theorem buildParams_segs (q : ToolParams) :
    buildParams q =
      constSeg "destinations[]" (destVals q) ++ constSeg "categories[]" (catVals q) ++
      constSeg "search" (searchVals q) ++ constSeg "min_price" (minVals q) ++
      constSeg "max_price" (maxVals q) ++ constSeg "sort_by" (sortVals q) := by
  have sA : "search" ∉ keysOf (constSeg "destinations[]" (destVals q)) :=
    not_mem_keysOf_constSeg (by decide) _
  have sC : "search" ∉ keysOf (constSeg "categories[]" (catVals q)) :=
    not_mem_keysOf_constSeg (by decide) _
  have mA : "min_price" ∉ keysOf (constSeg "destinations[]" (destVals q)) :=
    not_mem_keysOf_constSeg (by decide) _
  have mC : "min_price" ∉ keysOf (constSeg "categories[]" (catVals q)) :=
    not_mem_keysOf_constSeg (by decide) _
  have mS : "min_price" ∉ keysOf (constSeg "search" (searchVals q)) :=
    not_mem_keysOf_constSeg (by decide) _
  have xA : "max_price" ∉ keysOf (constSeg "destinations[]" (destVals q)) :=
    not_mem_keysOf_constSeg (by decide) _
  have xC : "max_price" ∉ keysOf (constSeg "categories[]" (catVals q)) :=
    not_mem_keysOf_constSeg (by decide) _
  have xS : "max_price" ∉ keysOf (constSeg "search" (searchVals q)) :=
    not_mem_keysOf_constSeg (by decide) _
  have xM : "max_price" ∉ keysOf (constSeg "min_price" (minVals q)) :=
    not_mem_keysOf_constSeg (by decide) _
  have oA : "sort_by" ∉ keysOf (constSeg "destinations[]" (destVals q)) :=
    not_mem_keysOf_constSeg (by decide) _
  have oC : "sort_by" ∉ keysOf (constSeg "categories[]" (catVals q)) :=
    not_mem_keysOf_constSeg (by decide) _
  have oS : "sort_by" ∉ keysOf (constSeg "search" (searchVals q)) :=
    not_mem_keysOf_constSeg (by decide) _
  have oM : "sort_by" ∉ keysOf (constSeg "min_price" (minVals q)) :=
    not_mem_keysOf_constSeg (by decide) _
  have oX : "sort_by" ∉ keysOf (constSeg "max_price" (maxVals q)) :=
    not_mem_keysOf_constSeg (by decide) _
  have h3 : scalarParam
      (constSeg "destinations[]" (destVals q) ++ constSeg "categories[]" (catVals q))
      "search" q.search (fun s => !(s == "")) (fun s => s) =
      (constSeg "destinations[]" (destVals q) ++ constSeg "categories[]" (catVals q)) ++
        constSeg "search" (searchVals q) := by
    rw [scalarParam_eq _ _ _ _ _ (not_mem_keysOf_append sA sC), searchVals_def]
  have h4 : scalarParam
      ((constSeg "destinations[]" (destVals q) ++ constSeg "categories[]" (catVals q)) ++
        constSeg "search" (searchVals q))
      "min_price" q.min_price (fun v => !(v == 0)) intRepr =
      ((constSeg "destinations[]" (destVals q) ++ constSeg "categories[]" (catVals q)) ++
        constSeg "search" (searchVals q)) ++ constSeg "min_price" (minVals q) := by
    rw [scalarParam_eq _ _ _ _ _
        (not_mem_keysOf_append (not_mem_keysOf_append mA mC) mS), minVals_def]
  have h5 : scalarParam
      (((constSeg "destinations[]" (destVals q) ++ constSeg "categories[]" (catVals q)) ++
        constSeg "search" (searchVals q)) ++ constSeg "min_price" (minVals q))
      "max_price" q.max_price (fun v => !(v == 0)) intRepr =
      (((constSeg "destinations[]" (destVals q) ++ constSeg "categories[]" (catVals q)) ++
        constSeg "search" (searchVals q)) ++ constSeg "min_price" (minVals q)) ++
        constSeg "max_price" (maxVals q) := by
    rw [scalarParam_eq _ _ _ _ _
        (not_mem_keysOf_append (not_mem_keysOf_append (not_mem_keysOf_append xA xC) xS) xM),
      maxVals_def]
  have h6 : scalarParam
      ((((constSeg "destinations[]" (destVals q) ++ constSeg "categories[]" (catVals q)) ++
        constSeg "search" (searchVals q)) ++ constSeg "min_price" (minVals q)) ++
        constSeg "max_price" (maxVals q))
      "sort_by" q.sort_by (fun s => !(s == "")) (fun s => s) =
      ((((constSeg "destinations[]" (destVals q) ++ constSeg "categories[]" (catVals q)) ++
        constSeg "search" (searchVals q)) ++ constSeg "min_price" (minVals q)) ++
        constSeg "max_price" (maxVals q)) ++ constSeg "sort_by" (sortVals q) := by
    rw [scalarParam_eq _ _ _ _ _
        (not_mem_keysOf_append
          (not_mem_keysOf_append (not_mem_keysOf_append (not_mem_keysOf_append oA oC) oS) oM)
          oX),
      sortVals_def]
  simp only [buildParams]
  rw [foldl_appendParam, foldl_appendParam, List.nil_append, ← destVals_def, ← catVals_def]
  rw [h3, h4, h5, h6]

theorem valuesOf_append (k : String) (p1 p2 : Params) :
    valuesOf k (p1 ++ p2) = valuesOf k p1 ++ valuesOf k p2 := by
  simp [valuesOf, List.filter_append]

theorem valuesOf_constSeg (k key : String) (vs : List String) :
    valuesOf k (constSeg key vs) = if key = k then vs else [] := by
  by_cases h : key = k
  · subst h
    rw [if_pos rfl]
    induction vs with
    | nil => rfl
    | cons v vs ih => simpa [valuesOf, constSeg, List.filter_cons] using ih
  · rw [if_neg h]
    induction vs with
    | nil => rfl
    | cons v vs _ => simp [valuesOf, constSeg, List.filter_cons, beq_iff_eq, h]

theorem valuesOf_eq_nil_iff (k : String) (p : Params) :
    valuesOf k p = [] ↔ k ∉ keysOf p := by
  induction p with
  | nil => simp [valuesOf, keysOf]
  | cons e rest ih =>
    rw [keysOf_cons]
    by_cases h : e.1 = k
    · simp [valuesOf, List.filter_cons, h]
    · have h2 : ¬(k = e.1) := fun hh => h hh.symm
      have hb : (e.1 == k) = false := beq_eq_false_iff_ne.mpr h
      simp only [valuesOf, List.filter_cons, hb] at ih ⊢
      simp [ih, List.mem_cons, h2]

theorem getParam_eq_head (p : Params) (k : String) :
    getParam p k = (valuesOf k p).head? := by
  induction p with
  | nil => rfl
  | cons e rest ih =>
    by_cases h : e.1 = k
    · have hb : (e.1 == k) = true := beq_iff_eq.mpr h
      simp only [getParam, valuesOf, List.filter_cons, hb]
      rw [@List.find?_cons_of_pos _ (fun e => e.1 == k) e rest hb]
      simp
    · have hb : (e.1 == k) = false := beq_eq_false_iff_ne.mpr h
      simp only [getParam, valuesOf, List.filter_cons, hb] at ih ⊢
      rw [@List.find?_cons_of_neg _ (fun e => e.1 == k) e rest (by simp [hb])]
      simp

theorem valuesOf_build_dest (q : ToolParams) :
    valuesOf "destinations[]" (buildParams q) = destVals q := by
  rw [buildParams_segs]
  simp [valuesOf_append, valuesOf_constSeg]

theorem valuesOf_build_cat (q : ToolParams) :
    valuesOf "categories[]" (buildParams q) = catVals q := by
  rw [buildParams_segs]
  simp [valuesOf_append, valuesOf_constSeg]

theorem valuesOf_build_search (q : ToolParams) :
    valuesOf "search" (buildParams q) = searchVals q := by
  rw [buildParams_segs]
  simp [valuesOf_append, valuesOf_constSeg]

theorem valuesOf_build_min (q : ToolParams) :
    valuesOf "min_price" (buildParams q) = minVals q := by
  rw [buildParams_segs]
  simp [valuesOf_append, valuesOf_constSeg]

theorem valuesOf_build_max (q : ToolParams) :
    valuesOf "max_price" (buildParams q) = maxVals q := by
  rw [buildParams_segs]
  simp [valuesOf_append, valuesOf_constSeg]

theorem valuesOf_build_sort (q : ToolParams) :
    valuesOf "sort_by" (buildParams q) = sortVals q := by
  rw [buildParams_segs]
  simp [valuesOf_append, valuesOf_constSeg]

/-! ## Helper lemmas: decimal round trip -/

theorem string_eta (s : String) : String.mk s.data = s := rfl

theorem digitsAux10_eq_digits (fuel n : Nat) (h : n ≤ fuel) :
    digitsAux10 fuel n = Nat.digits 10 n := by
  induction fuel generalizing n with
  | zero =>
    have hn : n = 0 := Nat.le_zero.mp h
    subst hn
    simp [digitsAux10]
  | succ fuel ih =>
    by_cases hn : n = 0
    · subst hn
      simp [digitsAux10]
    · simp only [digitsAux10]
      rw [if_neg hn]
      have hlt : n / 10 ≤ fuel := by
        have : n / 10 < n := Nat.div_lt_self (Nat.pos_of_ne_zero hn) (by norm_num)
        omega
      rw [ih _ hlt, Nat.digits_def' (by norm_num : (1 : ℕ) < 10) (Nat.pos_of_ne_zero hn)]

theorem natRevDigits_eq_digits (n : Nat) : natRevDigits n = Nat.digits 10 n :=
  digitsAux10_eq_digits n n le_rfl

theorem decDigitChar_toNat (d : Nat) (h : d < 10) :
    (decDigitChar d).toNat = 48 + d := by
  interval_cases d <;> decide

theorem isDigitChar_decDigitChar (d : Nat) (h : d < 10) :
    isDigitChar (decDigitChar d) = true := by
  interval_cases d <;> decide

theorem natRepr_all_digits (n : Nat) :
    (natRepr n).data.all isDigitChar = true := by
  unfold natRepr
  by_cases h : n = 0
  · rw [if_pos h]
    decide
  · rw [if_neg h]
    rw [List.all_eq_true]
    intro c hc
    obtain ⟨d, hd, rfl⟩ := List.mem_map.mp hc
    have hd10 : d < 10 := by
      have hmem : d ∈ Nat.digits 10 n := by
        rw [← natRevDigits_eq_digits]
        exact List.mem_reverse.mp hd
      exact Nat.digits_lt_base (by norm_num) hmem
    exact isDigitChar_decDigitChar d hd10

theorem natRepr_data_ne_nil (n : Nat) : (natRepr n).data ≠ [] := by
  unfold natRepr
  by_cases h : n = 0
  · rw [if_pos h]
    decide
  · rw [if_neg h]
    have hdig : Nat.digits 10 n ≠ [] := Nat.digits_ne_nil_iff_ne_zero.mpr h
    simp [natRevDigits_eq_digits, hdig]

theorem parseNat_natRepr (n : Nat) : parseNat? (natRepr n) = some n := by
  by_cases h : n = 0
  · subst h
    decide
  · have hdata : (natRepr n).data = (natRevDigits n).reverse.map decDigitChar := by
      unfold natRepr
      rw [if_neg h]
    unfold parseNat?
    have hcond : (!(natRepr n).data.isEmpty && (natRepr n).data.all isDigitChar) = true := by
      rw [Bool.and_eq_true]
      refine ⟨?_, natRepr_all_digits n⟩
      rw [Bool.not_eq_true']
      rw [List.isEmpty_eq_false_iff_exists_mem]
      rcases hc : (natRepr n).data with _ | ⟨c, cs⟩
      · exact absurd hc (natRepr_data_ne_nil n)
      · exact ⟨c, List.mem_cons_self c cs⟩
    rw [if_pos hcond]
    congr 1
    rw [hdata, List.map_map]
    have hmap : (natRevDigits n).reverse.map ((fun c => c.toNat - 48) ∘ decDigitChar) =
        (natRevDigits n).reverse := by
      have hid : ∀ d ∈ (natRevDigits n).reverse,
          ((fun c => c.toNat - 48) ∘ decDigitChar) d = id d := by
        intro d hd
        have hd10 : d < 10 := by
          have hmem : d ∈ Nat.digits 10 n := by
            rw [← natRevDigits_eq_digits]
            exact List.mem_reverse.mp hd
          exact Nat.digits_lt_base (by norm_num) hmem
        simp [Function.comp, decDigitChar_toNat d hd10]
      rw [List.map_congr_left hid, List.map_id]
    rw [hmap, List.reverse_reverse, natRevDigits_eq_digits, Nat.ofDigits_digits]

theorem parseNat_natRepr_mk (n : Nat) :
    parseNat? (String.mk (natRepr n).data) = some n :=
  parseNat_natRepr n

theorem parseInt?_cons (c : Char) (cs : List Char) :
    parseInt? (String.mk (c :: cs)) =
      if c = '-' then (parseNat? (String.mk cs)).map (fun n => -(Int.ofNat n))
      else (parseNat? (String.mk (c :: cs))).map (fun n => Int.ofNat n) := rfl

theorem parseInt_intRepr (i : Int) : parseInt? (intRepr i) = some i := by
  by_cases hneg : i < 0
  · have h1 : intRepr i = String.mk ('-' :: (natRepr i.natAbs).data) := by
      unfold intRepr
      rw [if_pos hneg]
      rfl
    rw [h1, parseInt?_cons, if_pos rfl, parseNat_natRepr_mk]
    simp only [Option.map_some']
    congr 1
    rw [Int.ofNat_eq_natCast]
    omega
  · have h0 : ¬ i < 0 := hneg
    have h1 : intRepr i = natRepr i.natAbs := by
      unfold intRepr
      rw [if_neg h0]
    rcases hd : (natRepr i.natAbs).data with _ | ⟨c, cs⟩
    · exact absurd hd (natRepr_data_ne_nil _)
    · have h2 : natRepr i.natAbs = String.mk (c :: cs) := by
        rw [← hd, string_eta]
      have hdig : isDigitChar c = true := by
        have hall := natRepr_all_digits i.natAbs
        rw [List.all_eq_true] at hall
        exact hall c (by rw [hd]; exact List.mem_cons_self c cs)
      have hc : ¬ c = '-' := by
        intro hcm
        rw [hcm] at hdig
        exact absurd hdig (by decide)
      rw [h1, h2, parseInt?_cons, if_neg hc, ← h2, parseNat_natRepr]
      simp only [Option.map_some']
      congr 1
      rw [Int.ofNat_eq_natCast]
      omega

theorem intRepr_injective : Function.Injective intRepr := by
  intro a b h
  have ha := parseInt_intRepr a
  rw [h, parseInt_intRepr] at ha
  exact (Option.some.inj ha).symm

/-! ## General lemmas about validation and round trips -/

theorem zodValidate_sort_mem (raw q : ToolParams) (h : zodValidate raw = some q) :
    ∀ s, q.sort_by = some s → s ∈ SORT_OPTIONS := by
  intro s hs
  obtain ⟨se, ca, de, mi, ma, so⟩ := raw
  cases so with
  | none =>
    simp only [zodValidate] at h
    rw [← Option.some.inj h] at hs
    cases hs
  | some s2 =>
    simp only [zodValidate] at h
    by_cases h2 : s2 ∈ SORT_OPTIONS
    · rw [if_pos h2] at h
      rw [← Option.some.inj h] at hs
      have hss : s2 = s := Option.some.inj hs
      rw [← hss]
      exact h2
    · rw [if_neg h2] at h
      cases h

theorem filterMap_parseInt_map_intRepr (l : List Int) :
    (l.map intRepr).filterMap parseInt? = l := by
  induction l with
  | nil => rfl
  | cons x xs ih =>
    rw [List.map_cons, List.filterMap_cons]
    simp [parseInt_intRepr, ih]

/-! ## Claim theorems -/

/-- Claim C1: the specification demands that a failing backend fetch (network
error, non-success HTTP status, or a body without the listings shape) make
the Listing Search Tool return the structured failure object with
`success: false` and a non-empty error message, never an ill-formed result.
The code violates this: the `.catch` inside `searchListings` swallows every
such fault and resolves to `undefined`, so `execute` — whose own `catch`
with the structured failure object is unreachable — returns `undefined` to
the model-orchestration layer.  This theorem evaluates the embedded tool on
the three failing fetch outcomes and records that the result is `undefined`,
not a failure object. -/
theorem claim_C1_error_swallowed_eval :
    searchListingsToolExecute qAllAbsent (fun _ => .networkError "fetch failed") =
      ToolResult.undef ∧
    searchListingsToolExecute qAllAbsent
        (fun _ => .http 500 (.badJson "unexpected end of JSON input")) =
      ToolResult.undef ∧
    searchListingsToolExecute qAllAbsent
        (fun _ => .http 500 (.wrongShape "cannot read listings of undefined")) =
      ToolResult.undef ∧
    isFailureResult
        (searchListingsToolExecute qAllAbsent (fun _ => .networkError "fetch failed")) =
      false :=
  ⟨rfl, rfl, rfl, rfl⟩

/-- Claim C2 counterexample: the claim asserts the projected `categories`
field equals the list of category names.  At the concrete backend item
`itemC2` the code's projection keeps the full category objects, whose JSON
value differs from the list of bare name strings. -/
theorem claim_C2_counterexample :
    listingCategoriesJson (projectItem itemC2) ≠
      (itemC2.categories.map Category.name).map CatValue.str := by
  decide

/-- Claim C2 (amended): for every well-formed listings payload the tool
returns the items as an ordered sequence in backend order, each projected
with name from the backend title, slug verbatim, price from the backend
min_price, description verbatim — and the categories array passed through
as the backend category objects, not flattened to the name strings. -/
theorem claim_C2_amended (p : Params) (status : Nat) (items : List BackendItem) :
    searchListings p (fun _ => .http status (.listings items)) =
      ToolResult.listings (items.map projectItem) ∧
    (items.map projectItem).length = items.length ∧
    ∀ (i : Nat) (hi : i < items.length) (hj : i < (items.map projectItem).length),
      ((items.map projectItem).get ⟨i, hj⟩).name = (items.get ⟨i, hi⟩).title ∧
      ((items.map projectItem).get ⟨i, hj⟩).slug = (items.get ⟨i, hi⟩).slug ∧
      ((items.map projectItem).get ⟨i, hj⟩).price = (items.get ⟨i, hi⟩).min_price ∧
      ((items.map projectItem).get ⟨i, hj⟩).description =
        (items.get ⟨i, hi⟩).description ∧
      ((items.map projectItem).get ⟨i, hj⟩).categories =
        (items.get ⟨i, hi⟩).categories := by
  refine ⟨rfl, by simp, ?_⟩
  intro i hi hj
  simp [List.getElem_map, projectItem]

/-- Witness for claim C2 (amended) at a one-item payload. -/
theorem claim_C2_witness :
    searchListings [] (fun _ => .http 200 (.listings [itemC2])) =
      ToolResult.listings ([itemC2].map projectItem) ∧
    (([itemC2].map projectItem).get ⟨0, by decide⟩).price =
      ([itemC2].get ⟨0, by decide⟩).min_price := by
  have h := claim_C2_amended [] 200 [itemC2]
  exact ⟨h.1, (h.2.2 0 (by decide) (by decide)).2.2.1⟩

/-- Claim C3: an optional field that is absent produces no key at all in the
built query string — none of the six parameter keys appears when its field
is `none`. -/
theorem claim_C3_absent_fields_no_key (q : ToolParams) :
    (q.search = none → "search" ∉ keysOf (buildParams q)) ∧
    (q.min_price = none → "min_price" ∉ keysOf (buildParams q)) ∧
    (q.max_price = none → "max_price" ∉ keysOf (buildParams q)) ∧
    (q.sort_by = none → "sort_by" ∉ keysOf (buildParams q)) ∧
    (q.destinations = none → "destinations[]" ∉ keysOf (buildParams q)) ∧
    (q.categories = none → "categories[]" ∉ keysOf (buildParams q)) := by
  refine ⟨?_, ?_, ?_, ?_, ?_, ?_⟩ <;> intro h
  · rw [← valuesOf_eq_nil_iff, valuesOf_build_search]
    simp [searchVals, scalarVals, h]
  · rw [← valuesOf_eq_nil_iff, valuesOf_build_min]
    simp [minVals, scalarVals, h]
  · rw [← valuesOf_eq_nil_iff, valuesOf_build_max]
    simp [maxVals, scalarVals, h]
  · rw [← valuesOf_eq_nil_iff, valuesOf_build_sort]
    simp [sortVals, scalarVals, h]
  · rw [← valuesOf_eq_nil_iff, valuesOf_build_dest]
    simp [destVals, h]
  · rw [← valuesOf_eq_nil_iff, valuesOf_build_cat]
    simp [catVals, h]

/-- Witness for claim C3: with every field absent, none of the keys occurs. -/
theorem claim_C3_witness :
    "search" ∉ keysOf (buildParams qAllAbsent) ∧
    "min_price" ∉ keysOf (buildParams qAllAbsent) ∧
    "max_price" ∉ keysOf (buildParams qAllAbsent) ∧
    "sort_by" ∉ keysOf (buildParams qAllAbsent) ∧
    "destinations[]" ∉ keysOf (buildParams qAllAbsent) ∧
    "categories[]" ∉ keysOf (buildParams qAllAbsent) := by
  have h := claim_C3_absent_fields_no_key qAllAbsent
  exact ⟨h.1 rfl, h.2.1 rfl, h.2.2.1 rfl, h.2.2.2.1 rfl, h.2.2.2.2.1 rfl,
    h.2.2.2.2.2 rfl⟩

/-- Claim C4: for non-empty destination and category id lists (duplicate-free,
as the data model's id sets are), every id appears exactly once among the
values of its array key in the built query, and the values list is exactly
the input ids serialized in input order. -/
theorem claim_C4_ids_once_in_order (q : ToolParams) (ds cs : List Int)
    (hd : q.destinations = some ds) (hc : q.categories = some cs)
    (_hdne : ds ≠ []) (_hcne : cs ≠ [])
    (hdnd : ds.Nodup) (hcnd : cs.Nodup) :
    valuesOf "destinations[]" (buildParams q) = ds.map intRepr ∧
    valuesOf "categories[]" (buildParams q) = cs.map intRepr ∧
    (∀ id ∈ ds, (valuesOf "destinations[]" (buildParams q)).count (intRepr id) = 1) ∧
    (∀ id ∈ cs, (valuesOf "categories[]" (buildParams q)).count (intRepr id) = 1) := by
  have h1 : valuesOf "destinations[]" (buildParams q) = ds.map intRepr := by
    rw [valuesOf_build_dest, destVals_def, hd]
    simp
  have h2 : valuesOf "categories[]" (buildParams q) = cs.map intRepr := by
    rw [valuesOf_build_cat, catVals_def, hc]
    simp
  refine ⟨h1, h2, ?_, ?_⟩
  · intro id hid
    rw [h1]
    exact List.count_eq_one_of_mem (hdnd.map intRepr_injective)
      (List.mem_map_of_mem intRepr hid)
  · intro id hid
    rw [h2]
    exact List.count_eq_one_of_mem (hcnd.map intRepr_injective)
      (List.mem_map_of_mem intRepr hid)

/-- Witness for claim C4 at destination ids 3, 7 and category ids 4, 9. -/
theorem claim_C4_witness :
    valuesOf "destinations[]" (buildParams qC4) = [(3 : Int), 7].map intRepr ∧
    valuesOf "categories[]" (buildParams qC4) = [(4 : Int), 9].map intRepr ∧
    (valuesOf "destinations[]" (buildParams qC4)).count (intRepr 3) = 1 := by
  have h := claim_C4_ids_once_in_order qC4 [3, 7] [4, 9] rfl rfl (by decide)
    (by decide) (by decide) (by decide)
  exact ⟨h.1, h.2.1, h.2.2.1 3 (by decide)⟩

/-- Claim C5: every value the query builder ever places under the sort key —
for a tool call that passed the schema's enum gate — is one of the four
canonical sort identifiers. -/
theorem claim_C5_sort_canonical (raw q : ToolParams)
    (hval : zodValidate raw = some q) (v : String)
    (hv : v ∈ valuesOf "sort_by" (buildParams q)) : v ∈ SORT_OPTIONS := by
  rw [valuesOf_build_sort, sortVals_def] at hv
  rcases hsb : q.sort_by with _ | s
  · rw [hsb] at hv
    simp [scalarVals] at hv
  · rw [hsb] at hv
    have hsmem := zodValidate_sort_mem raw q hval s hsb
    simp only [scalarVals] at hv
    by_cases hse : (!(s == "")) = true
    · rw [if_pos hse] at hv
      rw [List.mem_singleton.mp hv]
      exact hsmem
    · rw [if_neg hse] at hv
      cases hv

/-- Witness for claim C5 at the canonical value best-selling. -/
theorem claim_C5_witness :
    zodValidate qC5 = some qC5 ∧ "best-selling" ∈ SORT_OPTIONS :=
  ⟨by decide, claim_C5_sort_canonical qC5 qC5 (by decide) "best-selling" (by decide)⟩

/-- Claim C6 (spec-modelled Sort Normalizer): any input that matches a
canonical sort identifier exactly up to letter case normalizes to that
canonical identifier. -/
theorem claim_C6_normalizer_case_insensitive (input c : String)
    (hc : c ∈ SORT_OPTIONS) (h : jsToLower input = jsToLower c) :
    getClosestSortOption input = some c := by
  have hne : input ≠ "" := by
    intro h0
    rw [h0] at h
    fin_cases hc <;> exact absurd h (by decide)
  unfold getClosestSortOption
  rw [if_neg hne, h]
  fin_cases hc <;> decide

/-- Witness for claim C6 at a mixed-case spelling of price-low-to-high. -/
theorem claim_C6_witness :
    "price-low-to-high" ∈ SORT_OPTIONS ∧
    jsToLower "Price-LOW-to-High" = jsToLower "price-low-to-high" ∧
    getClosestSortOption "Price-LOW-to-High" = some "price-low-to-high" :=
  ⟨by decide, by decide,
    claim_C6_normalizer_case_insensitive "Price-LOW-to-High" "price-low-to-high"
      (by decide) (by decide)⟩

/-- Claim C7 counterexample: with minimum price 50 and maximum price 20 the
query is sent to the backend with both bounds verbatim — the claim that such
a query is never sent (swapped or rejected beforehand) is false. -/
theorem claim_C7_counterexample :
    sentQuery (buildParams qC7) =
      [("min_price", "50"), ("max_price", "20"), ("per_page", "50")] ∧
    getParam (sentQuery (buildParams qC7)) "min_price" = some "50" ∧
    getParam (sentQuery (buildParams qC7)) "max_price" = some "20" ∧
    (50 : Int) > 20 := by
  decide

/-- Claim C7 (amended): the tool performs no comparison between the price
bounds — whenever both are present and nonzero, both are forwarded to the
backend verbatim, including when the minimum exceeds the maximum. -/
theorem claim_C7_amended (q : ToolParams) (a b : Int)
    (ha : q.min_price = some a) (hb : q.max_price = some b)
    (ha0 : a ≠ 0) (hb0 : b ≠ 0) :
    getParam (sentQuery (buildParams q)) "min_price" = some (intRepr a) ∧
    getParam (sentQuery (buildParams q)) "max_price" = some (intRepr b) := by
  have hm : valuesOf "min_price" (buildParams q) = [intRepr a] := by
    rw [valuesOf_build_min, minVals_def, ha]
    simp [scalarVals, ha0]
  have hx : valuesOf "max_price" (buildParams q) = [intRepr b] := by
    rw [valuesOf_build_max, maxVals_def, hb]
    simp [scalarVals, hb0]
  constructor
  · rw [getParam_eq_head, sentQuery, valuesOf_append, hm,
      show valuesOf "min_price" [("per_page", "50")] = [] from rfl]
    rfl
  · rw [getParam_eq_head, sentQuery, valuesOf_append, hx,
      show valuesOf "max_price" [("per_page", "50")] = [] from rfl]
    rfl

/-- Witness for claim C7 (amended) at min 50 and max 20. -/
theorem claim_C7_witness :
    (50 : Int) > 20 ∧
    getParam (sentQuery (buildParams qC7)) "min_price" = some (intRepr 50) ∧
    getParam (sentQuery (buildParams qC7)) "max_price" = some (intRepr 20) := by
  have h := claim_C7_amended qC7 50 20 rfl rfl (by decide) (by decide)
  exact ⟨by decide, h.1, h.2⟩

/-- Claim C8 counterexample: the claim asserts every failing request —
including a missing model-provider credential — yields a non-200 response
whose body is a JSON object of the error/details shape.  The missing-key
branch instead returns a plain-text body, so the JSON-shape part of the
claim is false for that failure class. -/
theorem claim_C8_counterexample :
    POST (.ok ()) false .respOk .respOk .respOk .respOk (.ok ()) =
      PostResponse.textResp 500 "Google API key not configured" ∧
    isStructuredJsonError
        (POST (.ok ()) false .respOk .respOk .respOk .respOk (.ok ())) = false :=
  ⟨rfl, rfl⟩

/-- Claim C8 (amended): every failing request gets status 500 and the process
does not crash (the handler is total); a body-parse fault, a reference-data
fetch fault and a model-invocation fault each produce the JSON
error/details object, while a missing credential produces a plain-text 500
response rather than the JSON shape. -/
theorem claim_C8_amended (hasKey : Bool) (dOut cOut pOut fOut : RefFetchOutcome)
    (mr : Except JsError Unit) (e : JsError) :
    (POST (.error e) hasKey dOut cOut pOut fOut mr =
      .jsonErrResp 500 "Internal server error" (errorHandler e)) ∧
    (POST (.ok ()) false dOut cOut pOut fOut mr =
      .textResp 500 "Google API key not configured") ∧
    (fetchDestinations dOut = .error e →
      POST (.ok ()) true dOut cOut pOut fOut mr =
        .jsonErrResp 500 "Internal server error" (errorHandler e)) ∧
    (fetchDestinations dOut = .ok () → fetchCategories cOut = .error e →
      POST (.ok ()) true dOut cOut pOut fOut mr =
        .jsonErrResp 500 "Internal server error" (errorHandler e)) ∧
    (fetchDestinations dOut = .ok () → fetchCategories cOut = .ok () →
      fetchPrivacyPolicy pOut = .error e →
      POST (.ok ()) true dOut cOut pOut fOut mr =
        .jsonErrResp 500 "Internal server error" (errorHandler e)) ∧
    (fetchDestinations dOut = .ok () → fetchCategories cOut = .ok () →
      fetchPrivacyPolicy pOut = .ok () → fetchFaq fOut = .error e →
      POST (.ok ()) true dOut cOut pOut fOut mr =
        .jsonErrResp 500 "Internal server error" (errorHandler e)) ∧
    (fetchDestinations dOut = .ok () → fetchCategories cOut = .ok () →
      fetchPrivacyPolicy pOut = .ok () → fetchFaq fOut = .ok () →
      mr = .error e →
      POST (.ok ()) true dOut cOut pOut fOut mr =
        .jsonErrResp 500 "Internal server error" (errorHandler e)) := by
  refine ⟨rfl, rfl, ?_, ?_, ?_, ?_, ?_⟩
  · intro h1
    simp [POST, h1]
  · intro h1 h2
    simp [POST, h1, h2]
  · intro h1 h2 h3
    simp [POST, h1, h2, h3]
  · intro h1 h2 h3 h4
    simp [POST, h1, h2, h3, h4]
  · intro h1 h2 h3 h4 h5
    simp [POST, h1, h2, h3, h4, h5]

/-- Witness for claim C8 (amended): a failing destinations fetch yields the
JSON 500 body carrying the thrown message. -/
theorem claim_C8_witness :
    POST (.ok ()) true .respFail .respOk .respOk .respOk (.ok ()) =
      PostResponse.jsonErrResp 500 "Internal server error"
        "Failed to fetch destinations" := by
  have h := claim_C8_amended true .respFail .respOk .respOk .respOk (.ok ())
    (.errv "Failed to fetch destinations")
  exact h.2.2.1 rfl

/-- Claim C9: building a query from a ListingQuery and parsing the array
values back recovers exactly the input destination and category id lists
(hence in particular the same sets of ids). -/
theorem claim_C9_roundtrip (q : ToolParams) :
    parsedIds "destinations[]" (buildParams q) = q.destinations.getD [] ∧
    parsedIds "categories[]" (buildParams q) = q.categories.getD [] := by
  constructor
  · unfold parsedIds
    rw [valuesOf_build_dest, destVals_def, filterMap_parseInt_map_intRepr]
  · unfold parsedIds
    rw [valuesOf_build_cat, catVals_def, filterMap_parseInt_map_intRepr]

/-- Claim C10: a present but JavaScript-falsy scalar — empty search string,
minimum price 0, maximum price 0 — is omitted from the query exactly as if
the field were absent, so a stated price bound of 0 is never forwarded. -/
theorem claim_C10_falsy_scalars_omitted (q : ToolParams) :
    (q.search = some "" → buildParams q = buildParams { q with search := none }) ∧
    (q.min_price = some 0 →
      buildParams q = buildParams { q with min_price := none } ∧
      "min_price" ∉ keysOf (buildParams q)) ∧
    (q.max_price = some 0 →
      buildParams q = buildParams { q with max_price := none } ∧
      "max_price" ∉ keysOf (buildParams q)) := by
  refine ⟨?_, ?_, ?_⟩
  · intro h
    rw [buildParams_segs, buildParams_segs]
    simp [destVals, catVals, searchVals, minVals, maxVals, sortVals, scalarVals, h]
  · intro h
    refine ⟨?_, ?_⟩
    · rw [buildParams_segs, buildParams_segs]
      simp [destVals, catVals, searchVals, minVals, maxVals, sortVals, scalarVals, h]
    · rw [← valuesOf_eq_nil_iff, valuesOf_build_min]
      simp [minVals, scalarVals, h]
  · intro h
    refine ⟨?_, ?_⟩
    · rw [buildParams_segs, buildParams_segs]
      simp [destVals, catVals, searchVals, minVals, maxVals, sortVals, scalarVals, h]
    · rw [← valuesOf_eq_nil_iff, valuesOf_build_max]
      simp [maxVals, scalarVals, h]

/-- Witness for claim C10 at empty search and zero price bounds. -/
theorem claim_C10_witness :
    buildParams qC10 = buildParams { qC10 with search := none } ∧
    buildParams qC10 = buildParams { qC10 with min_price := none } ∧
    "min_price" ∉ keysOf (buildParams qC10) ∧
    buildParams qC10 = buildParams { qC10 with max_price := none } ∧
    "max_price" ∉ keysOf (buildParams qC10) := by
  have h := claim_C10_falsy_scalars_omitted qC10
  exact ⟨h.1 rfl, (h.2.1 rfl).1, (h.2.1 rfl).2, (h.2.2 rfl).1, (h.2.2 rfl).2⟩
